import Mathlib

/-!
Verification of `nx_parallel/algorithms/vitality.py` (`closeness_vitality`).

The embedding models:
* graphs as node lists with an undirected edge list and an edge-attribute
  lookup (the `weight` selector picks an attribute name; `none` means unit
  weights, a missing attribute defaults to 1, as in networkx Dijkstra);
* Python numbers arising here as exact extended integers (`FVal`): finite
  values, plus and minus infinity, and nan, with IEEE subtraction rules
  (the spec scenarios all use integer weights; for an undirected graph the
  ordered-pair distance total is even, so the halving in the Wiener index is
  exact and integer division agrees with Python float division);
* `nx.wiener_index` as `wienerIndex`: an error on the null graph (networkx
  raises NetworkXPointlessConcept from `is_connected` there), `posInf` for a
  disconnected graph, and otherwise half the sum of all ordered-pair
  shortest-path distances;
* `G.subgraph(set(G) - {node})` as `subgraphMinus`: a view keeping the same
  edge store and filtering by node membership (networkx subgraph views filter
  adjacency by the retained node set, they do not copy or mutate);
* `joblib.Parallel` as a black-box deterministic parallel-map executor
  (`ParallelRun`), per the design treatment of the worker pool;
* `os.cpu_count()` as an explicit argument `n_cpus`.
-/

deriving instance DecidableEq for Except

/-- Exact model of the Python float values produced by this code path:
a finite number, positive infinity, negative infinity, or nan. -/
inductive FVal where
  | fin (q : ℤ)
  | posInf
  | negInf
  | nan
deriving DecidableEq, Repr

/-- IEEE-style subtraction on `FVal`, matching Python float subtraction:
`fin - posInf = negInf`, `posInf - posInf = nan`, and so on. -/
def FVal.sub : FVal → FVal → FVal
  | .fin a, .fin b => .fin (a - b)
  | .fin _, .posInf => .negInf
  | .fin _, .negInf => .posInf
  | .fin _, .nan => .nan
  | .posInf, .fin _ => .posInf
  | .posInf, .posInf => .nan
  | .posInf, .negInf => .posInf
  | .posInf, .nan => .nan
  | .negInf, .fin _ => .negInf
  | .negInf, .posInf => .negInf
  | .negInf, .negInf => .nan
  | .negInf, .nan => .nan
  | .nan, _ => .nan

/-- A networkx-style undirected graph: a node list, an edge list (an edge is
recorded once, in either orientation), and an edge-attribute table `w`
(attribute name to optional numeric value, looked up on the normalized
orientation of the edge since undirected edge data is shared). -/
structure Graph where
  nodes : List ℕ
  edges : List (ℕ × ℕ)
  w : ℕ → ℕ → String → Option ℤ

/-- Adjacency in a graph (or a subgraph view): both endpoints must be in the
retained node list and the edge must be present in either orientation. -/
def Graph.adjacentB (G : Graph) (u v : ℕ) : Bool :=
  decide (u ∈ G.nodes) && decide (v ∈ G.nodes) &&
    (decide ((u, v) ∈ G.edges) || decide ((v, u) ∈ G.edges))

/-- Length of an edge under a weight selector: unit weight when the selector
is `none`, else the named edge attribute, defaulting to 1 when absent. -/
def edgeLen (G : Graph) (weight : Option String) (u v : ℕ) : ℤ :=
  match weight with
  | none => 1
  | some s => (G.w (min u v) (max u v) s).getD 1

/-- Minimum of two optional distances, where `none` is unreachable. -/
def optMin : Option ℤ → Option ℤ → Option ℤ
  | none, b => b
  | some a, none => some a
  | some a, some b => some (min a b)

/-- One relaxation round of Bellman-Ford style shortest-path computation:
improve the tentative distance to `v` through every neighbour `u`. -/
def relaxStep (G : Graph) (weight : Option String) (d : ℕ → Option ℤ) (v : ℕ) : Option ℤ :=
  G.nodes.foldl
    (fun acc u =>
      if G.adjacentB u v then optMin acc ((d u).map (fun x => x + edgeLen G weight u v))
      else acc)
    (d v)

/-- Tentative shortest-path distances from `src` after `k` relaxation rounds. -/
def distIter (G : Graph) (weight : Option String) (src : ℕ) : ℕ → ℕ → Option ℤ
  | 0 => fun v => if v = src then some 0 else none
  | k + 1 => fun v => relaxStep G weight (distIter G weight src k) v

/-- Shortest-path distance between two nodes (`none` when unreachable);
`G.nodes.length` relaxation rounds suffice for any simple path. -/
def spDist (G : Graph) (weight : Option String) (u v : ℕ) : Option ℤ :=
  distIter G weight u G.nodes.length v

/-- Reachability: a finite unweighted shortest-path distance exists. -/
def reachableB (G : Graph) (u v : ℕ) : Bool :=
  (distIter G none u G.nodes.length v).isSome

/-- Model of `nx.is_connected` on a non-null graph: every node is reachable
from the first node (networkx runs a BFS from an arbitrary element). -/
def is_connectedB (G : Graph) : Bool :=
  match G.nodes with
  | [] => false
  | h :: _ => G.nodes.all (fun v => reachableB G h v)

/-- Model of `nx.wiener_index(G, weight=weight)`: an error on the null graph
(where networkx `is_connected` raises), `posInf` when disconnected, else half
the sum over all ordered node pairs of shortest-path distances. -/
def wienerIndex (G : Graph) (weight : Option String) : Except String FVal :=
  if G.nodes.isEmpty then
    .error "Connectivity is undefined for the null graph."
  else if is_connectedB G then
    .ok (.fin ((G.nodes.foldl
      (fun acc u =>
        acc + G.nodes.foldl (fun acc2 v => acc2 + (spDist G weight u v).getD 0) 0)
      0) / 2))
  else .ok .posInf

/-- Model of `G.subgraph(set(G) - {node})`: a subgraph view retaining the
nodes other than `v`; the edge store and attribute table are shared with the
original, and adjacency filters by the retained node list. -/
def subgraphMinus (G : Graph) (v : ℕ) : Graph :=
  { nodes := G.nodes.filter (fun u => u ≠ v), edges := G.edges, w := G.w }

/-- The argument accepted by `closeness_vitality`: either a raw graph, or a
thin wrapper exposing the raw graph through the `graph_object` accessor
(the code does `if hasattr(G, "graph_object"): G = G.graph_object`). -/
inductive GraphArg where
  | raw (G : Graph)
  | wrapped (G : Graph)

/-- Unwrapping: a raw graph is itself; a wrapper yields its underlying graph. -/
def GraphArg.graph_object : GraphArg → Graph
  | .raw G => G
  | .wrapped G => G

/-- The `n_jobs` normalization in the all-nodes path:
`if abs(n_jobs) > n_cpus: n_jobs = n_cpus`. -/
def resolve_n_jobs (n_cpus : ℕ) (n_jobs : Int) : Int :=
  if n_cpus < n_jobs.natAbs then (n_cpus : Int) else n_jobs

/-- Collect task results in task order, aborting on the first failure (a
failing task surfaces its error to the caller; no degraded collection). -/
def collectResults {α : Type} : List (Except String α) → Except String (List α)
  | [] => .ok []
  | t :: ts =>
    match t with
    | .error e => .error e
    | .ok x =>
      match collectResults ts with
      | .error e => .error e
      | .ok xs => .ok (x :: xs)

/-- Modelled from the spec: `joblib.Parallel(n_jobs=...)` is an external
collaborator, treated as a black-box parallel-map executor whose output
content is deterministic given the task list; the worker count affects
scheduling only, and a failing task aborts the whole collection. -/
def ParallelRun (n_jobs : Int) (tasks : List (Except String α)) :
    Except String (List α) :=
  match n_jobs with
  | _ => collectResults tasks

/-- The single-node computation of `closeness_vitality` with the baseline in
hand: `after = nx.wiener_index(G.subgraph(set(G) - {node}), weight=weight);
return wiener_index - after`. -/
def vitality_of_node (G : Graph) (weight : Option String) (wiener_index : FVal)
    (v : ℕ) : Except String FVal :=
  match wienerIndex (subgraphMinus G v) weight with
  | .error e => .error e
  | .ok after => .ok (wiener_index.sub after)

/-- Model of `closeness_vitality(G, node, weight, wiener_index, n_jobs)`.
The scalar result of single-node mode is `Sum.inl`, the node-to-value mapping
of all-nodes mode is `Sum.inr` (as an association list in node order, which
is what `dict(result)` holds). The source builds each per-node task by
partially applying `closeness_vitality` itself with `node := v` and
`wiener_index := wi`; on that path the function is exactly
`vitality_of_node`, which the fan-out therefore calls directly
(see theorem `closeness_vitality_single_eq`). -/
def closeness_vitality (GA : GraphArg) (node : Option ℕ) (weight : Option String)
    (wiener_index : Option FVal) (n_jobs : Int) (n_cpus : ℕ) :
    Except String (FVal ⊕ List (ℕ × FVal)) :=
  let G := GA.graph_object
  match (match wiener_index with
         | none => wienerIndex G weight
         | some wv => Except.ok wv) with
  | .error e => .error e
  | .ok wi =>
    match node with
    | some v =>
      match vitality_of_node G weight wi v with
      | .error e => .error e
      | .ok x => .ok (.inl x)
    | none =>
      let njc := resolve_n_jobs n_cpus n_jobs
      match ParallelRun njc (G.nodes.map (fun v =>
          match vitality_of_node G weight wi v with
          | .error e => Except.error e
          | .ok x => Except.ok (v, x))) with
      | .error e => .error e
      | .ok pairs => .ok (.inr pairs)

/-- State-instrumented single-node computation, used for the frame property:
the caller graph is the threaded state. Building the removal view returns a
fresh view and leaves the state untouched (networkx `subgraph` is a view),
and the Wiener-index oracle only reads its argument. -/
def vitality_of_node_st (s : Graph) (weight : Option String) (wiener_index : FVal)
    (v : ℕ) : Except String FVal × Graph :=
  let (view, s1) := (subgraphMinus s v, s)
  let (r, s2) := (wienerIndex view weight, s1)
  (match r with
   | .error e => .error e
   | .ok after => .ok (wiener_index.sub after), s2)

/-- State-instrumented fan-out: run the per-node tasks over the node list,
fail-fast, threading the caller graph through every task. -/
def runTasks_st (weight : Option String) (wi : FVal) :
    Graph → List ℕ → Except String (List (ℕ × FVal)) × Graph
  | s, [] => (.ok [], s)
  | s, v :: rest =>
    match vitality_of_node_st s weight wi v with
    | (.error e, s1) => (.error e, s1)
    | (.ok x, s1) =>
      match runTasks_st weight wi s1 rest with
      | (.ok prs, s2) => (.ok ((v, x) :: prs), s2)
      | (.error e, s2) => (.error e, s2)

/-- State-instrumented `closeness_vitality`: the same computation, returning
alongside the result the caller graph object as it stands after the call. -/
def closeness_vitality_st (GA : GraphArg) (node : Option ℕ) (weight : Option String)
    (wiener_index : Option FVal) (n_jobs : Int) (n_cpus : ℕ) :
    Except String (FVal ⊕ List (ℕ × FVal)) × Graph :=
  let G := GA.graph_object
  let (wres, s1) := (match wiener_index with
                     | none => wienerIndex G weight
                     | some wv => Except.ok wv, G)
  match wres with
  | .error e => (.error e, s1)
  | .ok wi =>
    match node with
    | some v =>
      match vitality_of_node_st s1 weight wi v with
      | (.error e, s2) => (.error e, s2)
      | (.ok x, s2) => (.ok (.inl x), s2)
    | none =>
      let njc := resolve_n_jobs n_cpus n_jobs
      match njc, runTasks_st weight wi s1 G.nodes with
      | _, (.error e, s2) => (.error e, s2)
      | _, (.ok prs, s2) => (.ok (.inr prs), s2)

/-- The 2-node scenario graph of the spec: one edge between nodes 0 and 1. -/
def Gp2 : Graph := { nodes := [0, 1], edges := [(0, 1)], w := fun _ _ _ => none }

/-- A 3-node path graph 0 - 1 - 2 with unit weights. -/
def Gp3 : Graph := { nodes := [0, 1, 2], edges := [(0, 1), (1, 2)], w := fun _ _ _ => none }

/-- The star scenario graph of the spec: center 0 with leaves 1, 2, 3. -/
def Gstar : Graph :=
  { nodes := [0, 1, 2, 3], edges := [(0, 1), (0, 2), (0, 3)], w := fun _ _ _ => none }

/-- A call on the single-node path (as made by each fan-out task of the
source, which partially applies the function itself with the baseline
supplied) is exactly `vitality_of_node`. -/
theorem closeness_vitality_single_eq (G : Graph) (weight : Option String)
    (wi : FVal) (v : ℕ) (nj : Int) (nc : ℕ) :
    closeness_vitality (.raw G) (some v) weight (some wi) nj nc =
      (vitality_of_node G weight wi v).map Sum.inl := by
  cases h : vitality_of_node G weight wi v <;>
    simp [closeness_vitality, GraphArg.graph_object, h, Except.map]

/-- Inverting a successful pair-building fan-out: every listed node has a
successful task, and the association list maps it to that value. -/
theorem collect_pairs_lookup (g : ℕ → Except String FVal) :
    ∀ (vs : List ℕ) (prs : List (ℕ × FVal)) (v : ℕ),
      collectResults (vs.map (fun u =>
        match g u with
        | .error e => Except.error e
        | .ok x => Except.ok (u, x))) = .ok prs →
      v ∈ vs → ∃ x, g v = .ok x ∧ prs.lookup v = some x := by
  intro vs
  induction vs with
  | nil => intro prs v _ hv; cases hv
  | cons u rest ih =>
    intro prs v hrun hv
    rw [List.map_cons] at hrun
    cases hg : g u with
    | error e =>
      exact absurd ((by simp only [collectResults, hg] at hrun; exact hrun) :
        (Except.error e : Except String (List (ℕ × FVal))) = .ok prs) (by simp)
    | ok xu =>
      simp only [collectResults, hg] at hrun
      cases hr : collectResults (rest.map (fun u =>
          match g u with
          | .error e => Except.error e
          | .ok x => Except.ok (u, x))) with
      | error e => rw [hr] at hrun; exact absurd hrun (by simp)
      | ok ps =>
        rw [hr] at hrun
        simp only [Except.ok.injEq] at hrun
        subst hrun
        by_cases hvu : v = u
        · subst hvu
          exact ⟨xu, hg, by simp [List.lookup]⟩
        · rcases List.mem_cons.mp hv with h | h
          · exact absurd h hvu
          · rcases ih ps v hr h with ⟨x, hx, hl⟩
            have hb : (v == u) = false := beq_eq_false_iff_ne.mpr hvu
            exact ⟨x, hx, by simpa [List.lookup, hb] using hl⟩

/-- Inverting a successful all-nodes call: the baseline resolved to some `W`
and the fan-out over the node list succeeded with exactly the returned
association list. -/
theorem closeness_vitality_all_ok (GA : GraphArg) (weight : Option String)
    (wi : Option FVal) (nj : Int) (nc : ℕ) (m : List (ℕ × FVal))
    (hm : closeness_vitality GA none weight wi nj nc = .ok (.inr m)) :
    ∃ W, (match wi with
          | none => wienerIndex GA.graph_object weight
          | some wv => Except.ok wv) = .ok W ∧
      collectResults (GA.graph_object.nodes.map (fun v =>
        match vitality_of_node GA.graph_object weight W v with
        | .error e => Except.error e
        | .ok x => Except.ok (v, x))) = .ok m := by
  cases hw : (match wi with
              | none => wienerIndex GA.graph_object weight
              | some wv => Except.ok wv) with
  | error e =>
    simp only [closeness_vitality, hw] at hm
    exact absurd hm (by simp)
  | ok W =>
    simp only [closeness_vitality, hw, ParallelRun] at hm
    refine ⟨W, rfl, ?_⟩
    cases hr : collectResults (GA.graph_object.nodes.map (fun v =>
        match vitality_of_node GA.graph_object weight W v with
        | .error e => Except.error e
        | .ok x => Except.ok (v, x))) with
    | error e => rw [hr] at hm; exact absurd hm (by simp)
    | ok prs => rw [hr] at hm; simp only [Except.ok.injEq, Sum.inr.injEq] at hm; rw [hm]

/-- Building the removal view and querying the oracle leave the threaded
caller graph unchanged: the instrumented single-node computation returns the
pure result together with the untouched state. -/
theorem vitality_of_node_st_eq (s : Graph) (weight : Option String) (wi : FVal)
    (v : ℕ) :
    vitality_of_node_st s weight wi v = (vitality_of_node s weight wi v, s) := rfl

/-- The instrumented fan-out returns the pure fail-fast collection and leaves
the threaded caller graph unchanged. -/
theorem runTasks_st_eq (weight : Option String) (wi : FVal) (s : Graph) :
    ∀ vs : List ℕ,
      runTasks_st weight wi s vs =
        (collectResults (vs.map (fun v =>
          match vitality_of_node s weight wi v with
          | .error e => Except.error e
          | .ok x => Except.ok (v, x))), s) := by
  intro vs
  induction vs with
  | nil => rfl
  | cons v rest ih =>
    simp only [runTasks_st, vitality_of_node_st_eq, List.map_cons, collectResults]
    cases hg : vitality_of_node s weight wi v with
    | error e => simp [hg]
    | ok x =>
      simp only [ih]
      cases hr : collectResults (rest.map (fun v =>
          match vitality_of_node s weight wi v with
          | .error e => Except.error e
          | .ok x => Except.ok (v, x))) with
      | error e => simp [hg, hr]
      | ok prs => simp [hg, hr]

/-- C8: for every wrapper object exposing an underlying raw graph via the
`graph_object` accessor, `closeness_vitality` on the wrapper returns the same
result as on the underlying raw graph, all other arguments equal. -/
theorem C8_wrapper_unwraps (W : Graph) (node : Option ℕ) (weight : Option String)
    (wi : Option FVal) (nj : Int) (nc : ℕ) :
    closeness_vitality (.wrapped W) node weight wi nj nc =
      closeness_vitality (.raw W) node weight wi nj nc := rfl

/-- C9: in single-node mode the result is independent of the requested
parallelism and of the available execution-unit count: neither the clamp nor
the executor takes part in this path. -/
theorem C9_single_node_ignores_parallelism (GA : GraphArg) (v : ℕ)
    (weight : Option String) (wi : Option FVal) (n1 n2 : Int) (nc1 nc2 : ℕ) :
    closeness_vitality GA (some v) weight wi n1 nc1 =
      closeness_vitality GA (some v) weight wi n2 nc2 := rfl

/-- C4: the all-nodes call accepts every parallelism value and returns a
mapping of identical content for any two of them (the clamp is total and the
executor's output content does not depend on the worker count). -/
theorem C4_parallelism_does_not_affect_content (GA : GraphArg)
    (weight : Option String) (wi : Option FVal) (n1 n2 : Int) (nc : ℕ) :
    closeness_vitality GA none weight wi n1 nc =
      closeness_vitality GA none weight wi n2 nc := rfl

/-- C5 counterexample: with 4 available units, a request of -8 is resolved to
+4, not to -4 — the clamp does not preserve the sign. -/
theorem C5_counterexample :
    resolve_n_jobs 4 (-8) = 4 ∧ ¬ resolve_n_jobs 4 (-8) = -4 := by decide

/-- C5 (amended): when the requested magnitude exceeds the available unit
count, `n_jobs` is set to the positive unit count regardless of the
request's sign (as the docstring states: set to `os.cpu_count()`). -/
theorem C5_amended_clamp_positive (nc : ℕ) (nj : Int)
    (h : nc < nj.natAbs) : resolve_n_jobs nc nj = (nc : Int) := by
  simp [resolve_n_jobs, h]

/-- Witness for C5 (amended): 4 available units, request -8. -/
theorem C5_amended_clamp_positive_witness :
    4 < (Int.natAbs (-8)) ∧ resolve_n_jobs 4 (-8) = ((4 : ℕ) : Int) :=
  ⟨by decide, C5_amended_clamp_positive 4 (-8) (by decide)⟩

/-- C3 counterexample: on the two-node path graph, asking for the vitality of
the absent node 5 does not fail — `set(G) - {5}` removes nothing, the
subgraph equals the graph, and the call returns the number 0. -/
theorem C3_counterexample :
    closeness_vitality (.raw Gp2) (some 5) none none (-1) 4 =
      .ok (.inl (.fin 0)) := by decide

/-- C3 (amended): for a node not in the graph the single-node call does not
fail: subtracting the absent node is a no-op, the induced subgraph is the
whole graph, and with an internally computed finite baseline the result is
exactly 0. -/
theorem C3_amended_absent_node_returns_zero (G : Graph) (v : ℕ)
    (weight : Option String) (nj : Int) (nc : ℕ) (w0 : ℤ)
    (hv : v ∉ G.nodes) (hw : wienerIndex G weight = .ok (.fin w0)) :
    closeness_vitality (.raw G) (some v) weight none nj nc =
      .ok (.inl (.fin 0)) := by
  have hfil : G.nodes.filter (fun u => u ≠ v) = G.nodes := by
    apply List.filter_eq_self.mpr
    intro a ha
    have hne : a ≠ v := fun h => hv (h ▸ ha)
    simp [hne]
  have hsub : subgraphMinus G v = G := by
    unfold subgraphMinus
    rw [hfil]
  simp [closeness_vitality, GraphArg.graph_object, hw, vitality_of_node, hsub,
    FVal.sub]

/-- Witness for C3 (amended): node 5 is absent from the two-node path graph,
whose Wiener index is 1. -/
theorem C3_amended_absent_node_returns_zero_witness :
    closeness_vitality (.raw Gp2) (some 5) none none 2 3 =
      .ok (.inl (.fin 0)) :=
  C3_amended_absent_node_returns_zero Gp2 5 none 2 3 1 (by decide) (by decide)

/-- C1: for every member node, the single-node call returns exactly the value
stored for that node in the mapping returned by the all-nodes call, for the
same weight selector and baseline argument. -/
theorem C1_single_agrees_with_all (GA : GraphArg) (v : ℕ)
    (weight : Option String) (wi : Option FVal) (nj nj2 : Int) (nc : ℕ)
    (m : List (ℕ × FVal))
    (hv : v ∈ GA.graph_object.nodes)
    (hm : closeness_vitality GA none weight wi nj nc = .ok (.inr m)) :
    (m.lookup v).map
        (fun x => (Except.ok (.inl x) : Except String (FVal ⊕ List (ℕ × FVal)))) =
      some (closeness_vitality GA (some v) weight wi nj2 nc) := by
  rcases closeness_vitality_all_ok GA weight wi nj nc m hm with ⟨W, hW, hcol⟩
  rcases collect_pairs_lookup (vitality_of_node GA.graph_object weight W)
      GA.graph_object.nodes m v hcol hv with ⟨x, hx, hl⟩
  have hs : closeness_vitality GA (some v) weight wi nj2 nc = .ok (.inl x) := by
    simp only [closeness_vitality, hW, hx]
  rw [hl, hs]
  rfl

/-- Witness for C1: on the 3-node path graph with no supplied baseline, the
all-nodes mapping stores value 3 for node 0, and the single-node call at node
0 returns the same value. -/
theorem C1_single_agrees_with_all_witness :
    (([(0, FVal.fin 3), (1, FVal.negInf), (2, FVal.fin 3)].lookup 0).map
        (fun x => (Except.ok (.inl x) : Except String (FVal ⊕ List (ℕ × FVal)))) =
      some (closeness_vitality (.raw Gp3) (some 0) none none 1 4)) :=
  C1_single_agrees_with_all (.raw Gp3) 0 none none (-1) 1 4
    [(0, FVal.fin 3), (1, FVal.negInf), (2, FVal.fin 3)] (by decide) (by decide)

/-- C2: with a finite baseline, removing a node whose removal disconnects the
(nonempty) remainder yields exactly negative infinity, passed through as a
value, while removing a node whose remainder has a finite total-distance
value yields the finite number baseline minus that value. -/
theorem C2_articulation_yields_negInf (G : Graph) (v : ℕ)
    (weight : Option String) (nj : Int) (nc : ℕ) (w0 : ℤ)
    (hv : v ∈ G.nodes) (hw : wienerIndex G weight = .ok (.fin w0)) :
    ((subgraphMinus G v).nodes.isEmpty = false →
      is_connectedB (subgraphMinus G v) = false →
      closeness_vitality (.raw G) (some v) weight none nj nc =
        .ok (.inl .negInf)) ∧
    (∀ q : ℤ, wienerIndex (subgraphMinus G v) weight = .ok (.fin q) →
      closeness_vitality (.raw G) (some v) weight none nj nc =
        .ok (.inl (.fin (w0 - q)))) := by
  constructor
  · intro hne hdis
    have hsub : wienerIndex (subgraphMinus G v) weight = .ok .posInf := by
      simp [wienerIndex, hne, hdis]
    simp [closeness_vitality, GraphArg.graph_object, hw, vitality_of_node,
      hsub, FVal.sub]
  · intro q hq
    simp [closeness_vitality, GraphArg.graph_object, hw, vitality_of_node,
      hq, FVal.sub]

/-- Witness for C2: on the star graph (center 0, leaves 1, 2, 3, baseline 9),
removing the center gives negative infinity; removing leaf 1 leaves a smaller
star of total-distance value 4, so its vitality is the finite 9 - 4. -/
theorem C2_articulation_yields_negInf_witness :
    closeness_vitality (.raw Gstar) (some 0) none none (-1) 4 =
        .ok (.inl .negInf) ∧
    closeness_vitality (.raw Gstar) (some 1) none none (-1) 4 =
        .ok (.inl (.fin (9 - 4))) :=
  ⟨(C2_articulation_yields_negInf Gstar 0 none (-1) 4 9
      (by decide) (by decide)).1 (by decide) (by decide),
   (C2_articulation_yields_negInf Gstar 1 none (-1) 4 9
      (by decide) (by decide)).2 4 (by decide)⟩

/-- C6: supplying the precomputed true baseline value gives results identical
to omitting it, in single-node mode and in all-nodes mode (where the omitted
baseline is computed once up front and handed to every per-node task). -/
theorem C6_precomputed_baseline_identical (GA : GraphArg) (v : ℕ)
    (weight : Option String) (nj : Int) (nc : ℕ) (W : FVal)
    (hw : wienerIndex GA.graph_object weight = .ok W) :
    closeness_vitality GA (some v) weight (some W) nj nc =
      closeness_vitality GA (some v) weight none nj nc ∧
    closeness_vitality GA none weight (some W) nj nc =
      closeness_vitality GA none weight none nj nc := by
  constructor <;> simp only [closeness_vitality, hw]

/-- Witness for C6: the 3-node path graph has Wiener index 4; supplying 4 and
omitting the baseline agree in both modes. -/
theorem C6_precomputed_baseline_identical_witness :
    closeness_vitality (.raw Gp3) (some 0) none (some (.fin 4)) (-1) 4 =
      closeness_vitality (.raw Gp3) (some 0) none none (-1) 4 ∧
    closeness_vitality (.raw Gp3) none none (some (.fin 4)) (-1) 4 =
      closeness_vitality (.raw Gp3) none none none (-1) 4 :=
  C6_precomputed_baseline_identical (.raw Gp3) 0 none (-1) 4 (.fin 4) (by decide)

/-- C10: a supplied baseline is used verbatim: with the remainder's
total-distance value finite at `a`, the call with baseline `b` returns
exactly `b - a` (even when `b` is not the true Wiener index), so two calls
with baselines `b` and `b'` differ by exactly `b - b'`. -/
theorem C10_supplied_baseline_verbatim (G : Graph) (v : ℕ)
    (weight : Option String) (b b' : ℤ) (nj : Int) (nc : ℕ) (a : ℤ)
    (hv : v ∈ G.nodes)
    (ha : wienerIndex (subgraphMinus G v) weight = .ok (.fin a)) :
    closeness_vitality (.raw G) (some v) weight (some (.fin b)) nj nc =
        .ok (.inl (.fin (b - a))) ∧
    closeness_vitality (.raw G) (some v) weight (some (.fin b')) nj nc =
        .ok (.inl (.fin (b' - a))) ∧
    (b - a) - (b' - a) = b - b' := by
  refine ⟨?_, ?_, by ring⟩ <;>
    simp [closeness_vitality, GraphArg.graph_object, vitality_of_node, ha,
      FVal.sub]

/-- Witness for C10: two-node path graph, node 0, fake baselines 10 and 3;
the remainder is the single node 1 with total-distance value 0. -/
theorem C10_supplied_baseline_verbatim_witness :
    closeness_vitality (.raw Gp2) (some 0) none (some (.fin 10)) (-1) 4 =
        .ok (.inl (.fin (10 - 0))) ∧
    closeness_vitality (.raw Gp2) (some 0) none (some (.fin 3)) (-1) 4 =
        .ok (.inl (.fin (3 - 0))) ∧
    (10 - 0 : ℤ) - (3 - 0) = 10 - 3 :=
  C10_supplied_baseline_verbatim Gp2 0 none 10 3 (-1) 4 0 (by decide) (by decide)

/-- C7: the caller's graph is unchanged by any call: in the
state-instrumented semantics (where networkx subgraph construction is a view
and the oracle only reads), the graph that comes back is exactly the one
passed in, and the computed result is the pure one. -/
theorem C7_caller_graph_unchanged (GA : GraphArg) (node : Option ℕ)
    (weight : Option String) (wi : Option FVal) (nj : Int) (nc : ℕ) :
    (closeness_vitality_st GA node weight wi nj nc).2 = GA.graph_object ∧
    (closeness_vitality_st GA node weight wi nj nc).1 =
      closeness_vitality GA node weight wi nj nc := by
  cases hw : (match wi with
              | none => wienerIndex GA.graph_object weight
              | some wv => Except.ok wv) with
  | error e =>
    constructor <;> simp only [closeness_vitality_st, closeness_vitality, hw]
  | ok W =>
    cases node with
    | some v =>
      constructor <;>
        · simp only [closeness_vitality_st, closeness_vitality, hw,
            vitality_of_node_st_eq]
          cases hg : vitality_of_node GA.graph_object weight W v <;> simp [hg]
    | none =>
      constructor <;>
        · simp only [closeness_vitality_st, closeness_vitality, hw,
            runTasks_st_eq, ParallelRun]
          cases hr : collectResults (GA.graph_object.nodes.map (fun v =>
              match vitality_of_node GA.graph_object weight W v with
              | .error e => Except.error e
              | .ok x => Except.ok (v, x))) <;> simp [hr]
